import Mathlib

/-!
# Verification of the tech-finance-news processing core

A shallow embedding of the stage-tracked processing pipeline of the
tech-finance-news repository: the SQLite store (`src/db/schema.ts`),
the store/ledger queries (`src/db/queries.ts`), the relevance filter
(`src/filter/matcher.ts`), the publication adapter (`src/notion/client.ts`),
the content-extraction step (`src/scraper/content-extractor.ts`) and the
daily-digest step (`src/digest/index.ts` with `src/digest/briefing.ts`).

Modelling conventions:
* SQL tables become Lean lists of row structures; a `Db` value is one
  database state.  Insertion order of lists mirrors insertion order of rows.
* `datetime('now')` timestamps and `date(...)` day keys are modelled as `Nat`
  parameters passed to the operations that read the clock; columns no claim
  depends on (autoincrement `id`, `processed_at`, `created_at`) are omitted.
* SQL `NULL` for the article `content` column is represented by the empty
  string, exactly as the repository's own `mapArticleRow` coalesces
  `row.content ?? ''`.
* External services (OpenAI completion, Notion page creation) are modelled
  as explicit oracle arguments: the text a completion would return, and an
  `Option String` holding the created page id (`none` = the call failed).
-/

namespace TFN

/-- Pipeline stage, `stage IN ('scraped','filtered','summarized','pushed')`
from the `processing_log` table of `src/db/schema.ts`. -/
inductive Stage where
  | scraped
  | filtered
  | summarized
  | pushed
deriving DecidableEq, Repr

/-- Outcome of a stage attempt, `status IN ('success','failed','skipped')`. -/
inductive Status where
  | success
  | failed
  | skipped
deriving DecidableEq, Repr

/-- One row of the `articles` table.  `content` holds the empty string where
the column is SQL `NULL` (the repository's `mapArticleRow` makes the same
identification).  `publishedAt` and `createdAt` are abstract timestamps. -/
structure ArticleRow where
  id : String
  title : String
  url : String
  content : String
  publishedAt : Nat
  source : String
  createdAt : Nat
deriving DecidableEq, Repr

/-- One row of the `processing_log` table: the append-only stage ledger.
The autoincrement `id` and the `processed_at` timestamp are omitted; no
claim depends on them. -/
structure LogEntry where
  articleId : String
  stage : Stage
  status : Status
  errorMessage : Option String
deriving DecidableEq, Repr

/-- One row of the `notion_sync` table (`article_id` is its primary key).
`syncedDay` is the day key that SQLite's `date(synced_at)` would produce. -/
structure SyncRow where
  articleId : String
  notionPageId : String
  syncedDay : Nat
deriving DecidableEq, Repr

/-- One row of the `summaries` table (`article_id` is its primary key). -/
structure SummaryRow where
  articleId : String
  shortSummary : String
  detailedSummary : Option String
  tokensUsed : Option Nat
deriving DecidableEq, Repr

/-- One row of the `daily_briefings` table (`date` is its primary key,
modelled as a `Nat` day key). -/
structure BriefingRow where
  date : Nat
  articleCount : Nat
  globalSummary : String
  notionPageId : Option String
deriving DecidableEq, Repr

/-- One database state: the five tables of `src/db/schema.ts`. -/
structure Db where
  articles : List ArticleRow
  processingLog : List LogEntry
  notionSync : List SyncRow
  summaries : List SummaryRow
  dailyBriefings : List BriefingRow
deriving DecidableEq, Repr

/-- The freshly created database: every table empty. -/
def emptyDb : Db := ⟨[], [], [], [], []⟩

/-! ## Ordering helper

Several queries end in `ORDER BY a.published_at DESC`.  We model this with a
stable insertion sort on a `Nat` sort key (descending). -/

/-- Insert `a` into a descending-sorted list, keeping the sort stable. -/
def insertDescBy (key : α → Nat) (a : α) : List α → List α
  | [] => [a]
  | b :: l => if key b < key a then a :: b :: l else b :: insertDescBy key a l

/-- Stable sort, descending by `key`: the `ORDER BY ... DESC` of the SQL. -/
def sortDescBy (key : α → Nat) : List α → List α
  | [] => []
  | a :: l => insertDescBy key a (sortDescBy key l)

theorem mem_insertDescBy (key : α → Nat) (a x : α) (l : List α) :
    x ∈ insertDescBy key a l ↔ x = a ∨ x ∈ l := by
  induction l with
  | nil => simp [insertDescBy]
  | cons b l ih =>
    simp only [insertDescBy]
    split
    · simp
    · simp [ih]
      tauto

theorem mem_sortDescBy (key : α → Nat) (x : α) (l : List α) :
    x ∈ sortDescBy key l ↔ x ∈ l := by
  induction l with
  | nil => simp [sortDescBy]
  | cons a l ih => simp [sortDescBy, mem_insertDescBy, ih]

theorem length_insertDescBy (key : α → Nat) (a : α) (l : List α) :
    (insertDescBy key a l).length = l.length + 1 := by
  induction l with
  | nil => simp [insertDescBy]
  | cons b l ih =>
    simp only [insertDescBy]
    split <;> simp [ih]

theorem length_sortDescBy (key : α → Nat) (l : List α) :
    (sortDescBy key l).length = l.length := by
  induction l with
  | nil => simp [sortDescBy]
  | cons a l ih => simp [sortDescBy, length_insertDescBy, ih]

/-! ## Store and ledger operations (`src/db/queries.ts`) -/

/-- `insertArticle`: plain `INSERT` into `articles` (success path). -/
def insertArticle (a : ArticleRow) (db : Db) : Db :=
  { db with articles := db.articles ++ [a] }

/-- `updateArticleContent`: `UPDATE articles SET content = ? WHERE id = ?`.
Note that the SQL is unconditional: it overwrites whatever content the
matching rows hold. -/
def updateArticleContent (id content : String) (db : Db) : Db :=
  { db with articles := db.articles.map fun a =>
      if a.id = id then { a with content := content } else a }

/-- `logProcessing`: plain append-only `INSERT INTO processing_log`. -/
def logProcessing (articleId : String) (stage : Stage) (status : Status)
    (errorMessage : Option String) (db : Db) : Db :=
  { db with processingLog :=
      db.processingLog ++ [⟨articleId, stage, status, errorMessage⟩] }

/-- `getPreviousStage` from `src/db/queries.ts`: the predecessor in the fixed
stage order `scraped → filtered → summarized → pushed`. -/
def getPreviousStage : Stage → Option Stage
  | .scraped => none
  | .filtered => some .scraped
  | .summarized => some .filtered
  | .pushed => some .summarized

/-- `getArticlesNeedingProcessing`: the core eligibility query.
For a stage with a predecessor it is the SQL
`SELECT a.* FROM articles a INNER JOIN processing_log pl ON a.id = pl.article_id
 WHERE pl.stage = prev AND pl.status = 'success'
 AND a.id NOT IN (SELECT article_id FROM processing_log WHERE stage = stage)
 ORDER BY a.published_at DESC`
(the join is without `DISTINCT`, so an article appears once per matching
predecessor-success row); for `scraped` it selects the articles with no
ledger row at all. -/
def getArticlesNeedingProcessing (stage : Stage) (db : Db) : List ArticleRow :=
  match getPreviousStage stage with
  | some prev =>
      sortDescBy (·.publishedAt) <|
        (db.articles.flatMap fun a =>
          (db.processingLog.filter fun pl =>
            decide (pl.articleId = a.id ∧ pl.stage = prev ∧ pl.status = .success)).map
            fun _ => a).filter fun a =>
          ! db.processingLog.any fun pl => decide (pl.articleId = a.id ∧ pl.stage = stage)
  | none =>
      sortDescBy (·.publishedAt) <|
        db.articles.filter fun a =>
          ! db.processingLog.any fun pl => decide (pl.articleId = a.id)

/-- `getUnsyncedArticles`: articles with a `summarized`/`success` ledger row
whose id has no `notion_sync` row, ordered newest first.  This — not the
stage ledger — is how the publish step selects its work. -/
def getUnsyncedArticles (db : Db) : List ArticleRow :=
  sortDescBy (·.publishedAt) <|
    (db.articles.flatMap fun a =>
      (db.processingLog.filter fun pl =>
        decide (pl.articleId = a.id ∧ pl.stage = .summarized ∧ pl.status = .success)).map
        fun _ => a).filter fun a =>
      ! db.notionSync.any fun ns => decide (ns.articleId = a.id)

/-- `upsertSummary`: `INSERT ... ON CONFLICT(article_id) DO UPDATE`. -/
def upsertSummary (articleId shortSummary : String)
    (detailedSummary : Option String) (tokensUsed : Option Nat) (db : Db) : Db :=
  if db.summaries.any fun s => decide (s.articleId = articleId) then
    { db with summaries := db.summaries.map fun s =>
        if s.articleId = articleId then
          ⟨articleId, shortSummary, detailedSummary, tokensUsed⟩
        else s }
  else
    { db with summaries :=
        db.summaries ++ [⟨articleId, shortSummary, detailedSummary, tokensUsed⟩] }

/-- `getSummary`: `SELECT * FROM summaries WHERE article_id = ?` (first row). -/
def getSummary (articleId : String) (db : Db) : Option SummaryRow :=
  db.summaries.find? fun s => decide (s.articleId = articleId)

/-- `recordNotionSync`: `INSERT INTO notion_sync ... ON CONFLICT(article_id)
DO UPDATE SET notion_page_id = excluded.notion_page_id,
synced_at = datetime('now')`.  `now` is the current day key. -/
def recordNotionSync (articleId notionPageId : String) (now : Nat) (db : Db) : Db :=
  if db.notionSync.any fun ns => decide (ns.articleId = articleId) then
    { db with notionSync := db.notionSync.map fun ns =>
        if ns.articleId = articleId then ⟨articleId, notionPageId, now⟩ else ns }
  else
    { db with notionSync := db.notionSync ++ [⟨articleId, notionPageId, now⟩] }

/-- `isArticleSynced`: `SELECT 1 FROM notion_sync WHERE article_id = ?`. -/
def isArticleSynced (articleId : String) (db : Db) : Bool :=
  db.notionSync.any fun ns => decide (ns.articleId = articleId)

/-- `getNotionSync`: `SELECT * FROM notion_sync WHERE article_id = ?`
(first matching row). -/
def getNotionSync (articleId : String) (db : Db) : Option SyncRow :=
  db.notionSync.find? fun ns => decide (ns.articleId = articleId)

/-- Number of `notion_sync` rows carrying a given article id (a derived
view used to state the one-row-per-article invariant). -/
def syncCount (db : Db) (articleId : String) : Nat :=
  (db.notionSync.filter fun ns => decide (ns.articleId = articleId)).length

/-- Number of `success` ledger rows for a given (article, stage) pair (a
derived view used to state the at-most-one-success property). -/
def successCount (db : Db) (articleId : String) (stage : Stage) : Nat :=
  (db.processingLog.filter fun pl =>
    decide (pl.articleId = articleId ∧ pl.stage = stage ∧ pl.status = .success)).length

/-- An article joined with its summary (`ArticleWithSummary` of
`src/db/queries.ts`). -/
structure ArticleWithSummary where
  article : ArticleRow
  summary : SummaryRow
deriving DecidableEq, Repr

/-- `getTodaySyncedArticles`: the three-way join of `articles`,
`notion_sync` (restricted to rows synced on the given day) and `summaries`,
ordered by `published_at DESC`.  `today` is the day key that
`date('now','localtime')` would produce. -/
def getTodaySyncedArticles (today : Nat) (db : Db) : List ArticleWithSummary :=
  sortDescBy (·.article.publishedAt) <|
    db.articles.flatMap fun a =>
      (db.notionSync.filter fun ns =>
        decide (ns.articleId = a.id ∧ ns.syncedDay = today)).flatMap fun _ =>
        (db.summaries.filter fun s => decide (s.articleId = a.id)).map fun s =>
          ⟨a, s⟩

/-! ## Daily-briefing store operations (`src/digest/briefing.ts`) -/

/-- `briefingExists`: `SELECT 1 FROM daily_briefings WHERE date = ?`. -/
def briefingExists (date : Nat) (db : Db) : Bool :=
  db.dailyBriefings.any fun b => decide (b.date = date)

/-- `getBriefing`: `SELECT * FROM daily_briefings WHERE date = ?`
(first matching row). -/
def getBriefing (date : Nat) (db : Db) : Option BriefingRow :=
  db.dailyBriefings.find? fun b => decide (b.date = date)

/-- `saveBriefing`: `INSERT INTO daily_briefings ... ON CONFLICT(date) DO
UPDATE SET article_count = excluded.article_count, global_summary =
excluded.global_summary, notion_page_id = COALESCE(excluded.notion_page_id,
notion_page_id)`. -/
def saveBriefing (b : BriefingRow) (db : Db) : Db :=
  if db.dailyBriefings.any fun r => decide (r.date = b.date) then
    { db with dailyBriefings := db.dailyBriefings.map fun r =>
        if r.date = b.date then
          { r with
            articleCount := b.articleCount
            globalSummary := b.globalSummary
            notionPageId := match b.notionPageId with
              | some p => some p
              | none => r.notionPageId }
        else r }
  else
    { db with dailyBriefings := db.dailyBriefings ++ [b] }

/-- `updateBriefingNotionId`:
`UPDATE daily_briefings SET notion_page_id = ? WHERE date = ?`. -/
def updateBriefingNotionId (date : Nat) (notionPageId : String) (db : Db) : Db :=
  { db with dailyBriefings := db.dailyBriefings.map fun r =>
      if r.date = date then { r with notionPageId := some notionPageId } else r }

/-! ## Daily-digest step (`runDailyDigest` of `src/digest/index.ts`)

The step is modelled with two oracle arguments for its external calls:
`summaryText` is the narrative `generateGlobalSummary` produces (the source
never throws here — on any failure it substitutes a templated fallback
string, so a plain `String` is faithful), and `notionResult` is the page id
`createNotionBriefingPage` returns (`none` both when Notion is unconfigured
and when the remote call fails — the source maps both to `null`). -/

/-- Externally visible actions of one digest run, in execution order. -/
inductive DigestEvent where
  | summaryRequest
  | saveRecord
  | remoteAttempt
deriving DecidableEq, Repr

/-- Result of one `runDailyDigest` call: the new database state, the ordered
trace of externally visible actions, and the flags a caller can observe. -/
structure DigestRun where
  db : Db
  events : List DigestEvent
  savedBriefing : Bool
  requestedSummary : Bool
  success : Bool
deriving Repr

/-- `runDailyDigest`: skip when a briefing row for today exists; skip when no
article was synced today; otherwise request the narrative, save the briefing
row (count + narrative, no page id) to the local store, then attempt the
Notion push and, only if it returned a page id, store that id on the row. -/
def runDailyDigest (today : Nat) (summaryText : String)
    (notionResult : Option String) (db : Db) : DigestRun :=
  if briefingExists today db then
    ⟨db, [], false, false, true⟩
  else
    let arts := getTodaySyncedArticles today db
    if arts.isEmpty then
      ⟨db, [], false, false, true⟩
    else
      let db1 := saveBriefing ⟨today, arts.length, summaryText, none⟩ db
      let db2 := match notionResult with
        | some pid => updateBriefingNotionId today pid db1
        | none => db1
      ⟨db2, [.summaryRequest, .saveRecord, .remoteAttempt], true, true, true⟩

/-! ## Publication adapter (`pushArticleToNotion` of `src/notion/client.ts`)

The external `client.pages.create` call (under its retry wrapper) is the
oracle `createResult`: `some pageId` when the page was created, `none` when
every attempt failed. -/

/-- Result of one `pushArticleToNotion` call: the new database state plus the
fields of the source's `NotionPushResult`, and whether the remote service
was called at all. -/
structure PushOutcome where
  db : Db
  success : Bool
  skipped : Bool
  pageId : Option String
  calledRemote : Bool
deriving Repr

/-- `pushArticleToNotion`: pre-flight `isArticleSynced` check returning a
success-skip, then summary lookup, then the remote call; on success record
the sync row and a `pushed`/`success` ledger row, on failure only a
`pushed`/`failed` ledger row. -/
def pushArticleToNotion (now : Nat) (createResult : Option String)
    (errText : String) (a : ArticleRow) (db : Db) : PushOutcome :=
  if isArticleSynced a.id db then
    ⟨db, true, true, none, false⟩
  else
    match getSummary a.id db with
    | none => ⟨db, false, false, none, false⟩
    | some _ =>
      match createResult with
      | some pageId =>
          let db1 := recordNotionSync a.id pageId now db
          let db2 := logProcessing a.id .pushed .success none db1
          ⟨db2, true, false, some pageId, true⟩
      | none =>
          ⟨logProcessing a.id .pushed .failed (some errText) db, false, false, none, true⟩

/-! ## Content-extraction step (`extractArticleContents` of
`src/scraper/content-extractor.ts`)

One loop iteration of `extractArticleContents` for one article.  The raw
text the page-scrape produced is the oracle `extracted` (`none` when
navigation or extraction threw); `fetchArticleContent` then discards any
text of 100 characters or fewer. -/

/-- Tag recording which branch the loop body took for an article. -/
inductive ExtractTag where
  | skipped
  | ok
  | failed
deriving DecidableEq, Repr

/-- `fetchArticleContent`: returns the extracted text only when it is longer
than 100 characters, otherwise `null`. -/
def fetchArticleContent (extracted : Option String) : Option String :=
  match extracted with
  | some c => if 100 < c.length then some c else none
  | none => none

/-- One iteration of the `extractArticleContents` loop: skip (writing
nothing) when the article already holds more than 100 characters of content;
otherwise store the fetched content and a `scraped`/`success` ledger row, or
a `scraped`/`failed` row when the fetch produced nothing. -/
def extractStep (extracted : Option String) (a : ArticleRow) (db : Db) :
    Db × ExtractTag :=
  if ¬ a.content = "" ∧ 100 < a.content.length then
    (db, .skipped)
  else
    match fetchArticleContent extracted with
    | some c =>
        (logProcessing a.id .scraped .success none (updateArticleContent a.id c db), .ok)
    | none =>
        (logProcessing a.id .scraped .failed (some "Content extraction failed") db, .failed)

/-! ## Reachable database states

The repository mutates the store only through the operations above; a
reachable state is anything obtainable from the fresh database by a
sequence of them. -/

/-- One application of a store-mutating operation. -/
inductive DbMutation : Db → Db → Prop where
  | insertArticle (a : ArticleRow) (db : Db) :
      DbMutation db (insertArticle a db)
  | updateArticleContent (id content : String) (db : Db) :
      DbMutation db (updateArticleContent id content db)
  | logProcessing (articleId : String) (stage : Stage) (status : Status)
      (errorMessage : Option String) (db : Db) :
      DbMutation db (logProcessing articleId stage status errorMessage db)
  | upsertSummary (articleId shortSummary : String)
      (detailedSummary : Option String) (tokensUsed : Option Nat) (db : Db) :
      DbMutation db (upsertSummary articleId shortSummary detailedSummary tokensUsed db)
  | recordNotionSync (articleId notionPageId : String) (now : Nat) (db : Db) :
      DbMutation db (recordNotionSync articleId notionPageId now db)
  | saveBriefing (b : BriefingRow) (db : Db) :
      DbMutation db (saveBriefing b db)
  | updateBriefingNotionId (date : Nat) (notionPageId : String) (db : Db) :
      DbMutation db (updateBriefingNotionId date notionPageId db)

/-- A database state reachable from the fresh database. -/
def Reachable (db : Db) : Prop :=
  Relation.ReflTransGen DbMutation emptyDb db

/-! ## Relevance filter (`src/filter/matcher.ts` and `src/config/keywords.ts`)

`normalizeText` in the source lowercases and then strips Unicode combining
marks after NFD decomposition.  The embedding models this as a per-character
fold: ASCII lowercasing (the keyword table and the inputs under study contain
no upper-case accented letters) followed by a table mapping each
precomposed accented Latin letter that occurs in the keyword table or the
inputs to its base letter — exactly the effect NFD + strip U+0300..U+036F
has on those characters. -/

/-- Map a precomposed accented lower-case Latin letter to its base letter
(the effect of NFD decomposition followed by dropping combining marks). -/
def stripAccent (c : Char) : Char :=
  match c with
  | 'é' => 'e'
  | 'è' => 'e'
  | 'ê' => 'e'
  | 'ë' => 'e'
  | 'à' => 'a'
  | 'â' => 'a'
  | 'ä' => 'a'
  | 'î' => 'i'
  | 'ï' => 'i'
  | 'ô' => 'o'
  | 'ö' => 'o'
  | 'ù' => 'u'
  | 'û' => 'u'
  | 'ü' => 'u'
  | 'ç' => 'c'
  | _ => c

/-- `normalizeText` as a character list: lowercase, then strip accents. -/
def normalizeChars (s : String) : List Char :=
  s.data.map fun c => stripAccent c.toLower

/-- A JavaScript regex word character (`\w` is `[A-Za-z0-9_]`); the `\b`
boundaries of the short-keyword regex sit between a word and a non-word
character. -/
def isWordChar (c : Char) : Bool :=
  ('a' ≤ c ∧ c ≤ 'z') ∨ ('A' ≤ c ∧ c ≤ 'Z') ∨ ('0' ≤ c ∧ c ≤ '9') ∨ c = '_'

/-- Whether `pat` is an initial segment of `s`. -/
def headMatch : List Char → List Char → Bool
  | [], _ => true
  | _ :: _, [] => false
  | p :: ps, c :: cs => p = c ∧ headMatch ps cs

/-- `String.prototype.includes`: `pat` occurs somewhere in `s`. -/
def occursIn (pat : List Char) : List Char → Bool
  | [] => headMatch pat []
  | c :: rest => headMatch pat (c :: rest) ∨ occursIn pat rest

/-- Whether `pat` occurs at the head of `s` with word boundaries on both
sides; `prev` is the character immediately before this position (none at
the start of the text). -/
def boundaryHere (pat s : List Char) (prev : Option Char) : Bool :=
  headMatch pat s &&
    (match prev with
     | none => true
     | some c => ! isWordChar c) &&
    (match s.drop pat.length with
     | [] => true
     | c :: _ => ! isWordChar c)

/-- The regex test `\b pat \b` on `s`: some position carries the pattern
with word boundaries on both sides. -/
def boundarySearch (pat : List Char) (prev : Option Char) : List Char → Bool
  | [] => boundaryHere pat [] prev
  | c :: rest => boundaryHere pat (c :: rest) prev ∨ boundarySearch pat (some c) rest

/-- `containsKeyword`: normalize both sides; keywords shorter than 4
characters require word-boundary matching, longer ones use plain substring
containment. -/
def containsKeyword (text keyword : String) : Bool :=
  let t := normalizeChars text
  let k := normalizeChars keyword
  if k.length < 4 then boundarySearch k none t else occursIn k t

/-- `findMatches`: the keywords of a list that match the text, in list
order. -/
def findMatches (text : String) (keywords : List String) : List String :=
  keywords.filter fun kw => containsKeyword text kw

/-- The three categories of `TECH_KEYWORDS` in `src/config/keywords.ts`. -/
inductive KeywordCategory where
  | companies
  | themes
  | terms
deriving DecidableEq, Repr

/-- The iteration order `Object.entries(TECH_KEYWORDS)` produces: insertion
order of the object literal. -/
def categoriesInOrder : List KeywordCategory :=
  [.companies, .themes, .terms]

/-- The keyword table of `src/config/keywords.ts`. -/
def TECH_KEYWORDS : KeywordCategory → List String
  | .companies =>
    [ "Apple", "Microsoft", "Google", "Alphabet", "Amazon", "Meta",
      "Facebook", "NVIDIA", "Tesla", "Netflix",
      "AMD", "Intel", "Qualcomm", "Broadcom", "TSMC", "ASML", "ARM",
      "Salesforce", "Oracle", "IBM", "SAP", "Adobe", "ServiceNow",
      "Snowflake", "Palantir",
      "Alibaba", "Tencent", "Baidu", "JD.com", "Xiaomi", "Huawei",
      "Spotify", "Uber", "Airbnb", "PayPal", "Block", "Square",
      "Shopify", "Zoom", "Slack", "Dropbox" ]
  | .themes =>
    [ "IA", "intelligence artificielle", "artificial intelligence",
      "machine learning", "deep learning", "ChatGPT", "GPT", "LLM",
      "cloud", "AWS", "Azure", "data center", "centre de données",
      "semi-conducteurs", "semiconductors", "puces", "processeurs",
      "GPU", "CPU",
      "cybersécurité", "cybersecurity", "ransomware", "hacking",
      "blockchain", "crypto", "bitcoin", "ethereum", "5G", "6G",
      "IoT", "metaverse", "réalité virtuelle", "réalité augmentée",
      "VR", "AR",
      "SaaS", "logiciel", "software", "application" ]
  | .terms =>
    [ "tech", "technologie", "technology", "numérique", "digital",
      "startup", "fintech", "biotech", "cleantech", "edtech", "healthtech",
      "big tech", "GAFA", "GAFAM", "FAANG", "MAANG", "Magnificent Seven",
      "licenciements tech", "tech layoffs", "IPO tech",
      "introduction en bourse", "acquisition", "fusion", "merger" ]

/-- `FilterConfig` with exact rational weights. -/
structure FilterConfig where
  minScore : ℚ
  titleWeight : ℚ
  contentWeight : ℚ
  companyWeight : ℚ
  themeWeight : ℚ
  termWeight : ℚ
deriving DecidableEq, Repr

/-- `DEFAULT_FILTER_CONFIG` of `src/filter/matcher.ts`. -/
def DEFAULT_FILTER_CONFIG : FilterConfig :=
  { minScore := 2
    titleWeight := 3
    contentWeight := 1
    companyWeight := 2
    themeWeight := 3/2
    termWeight := 1 }

/-- The category-weight switch inside `matchArticle`. -/
def categoryWeight (config : FilterConfig) : KeywordCategory → ℚ
  | .companies => config.companyWeight
  | .themes => config.themeWeight
  | .terms => config.termWeight

/-- Append an element to a list unless already present (a JavaScript `Set`
keeps first-insertion order). -/
def addUnique [DecidableEq α] (l : List α) (a : α) : List α :=
  if a ∈ l then l else l ++ [a]

/-- `[...new Set(l)]`: deduplicate keeping the first occurrence of each
element. -/
def uniqueFirst [DecidableEq α] (l : List α) : List α :=
  l.foldl addUnique []

/-- The result record of `matchArticle` (the `details` sub-object is
flattened into the two trailing fields). -/
structure MatchResult where
  matched : Bool
  score : ℚ
  matchedKeywords : List String
  matchedCategories : List KeywordCategory
  titleMatches : List String
  contentMatches : List String
deriving DecidableEq, Repr

/-- Loop state of `matchArticle`: the two accumulating match lists, the
category set (as a first-insertion-order list) and the running score. -/
structure MatchAcc where
  titleMatches : List String
  contentMatches : List String
  cats : List KeywordCategory
  score : ℚ

/-- One iteration of the category loop of `matchArticle`: score title
matches at `titleWeight × categoryWeight` and content matches at
`contentWeight × categoryWeight`; the title-dedup filter is applied only to
the `contentMatches` list that is pushed, not to the score term. -/
def matchStep (article : ArticleRow) (config : FilterConfig)
    (acc : MatchAcc) (cat : KeywordCategory) : MatchAcc :=
  let keywords := TECH_KEYWORDS cat
  let cw := categoryWeight config cat
  let titleCategoryMatches := findMatches article.title keywords
  let acc1 :=
    if titleCategoryMatches.length > 0 then
      { acc with
        titleMatches := acc.titleMatches ++ titleCategoryMatches
        cats := addUnique acc.cats cat
        score := acc.score + titleCategoryMatches.length * config.titleWeight * cw }
    else acc
  let contentCategoryMatches := findMatches article.content keywords
  if contentCategoryMatches.length > 0 then
    let uniqueContentMatches :=
      contentCategoryMatches.filter fun m => decide (m ∉ titleCategoryMatches)
    { acc1 with
      contentMatches := acc1.contentMatches ++ uniqueContentMatches
      cats := if uniqueContentMatches.length > 0 then addUnique acc1.cats cat
              else acc1.cats
      score := acc1.score + contentCategoryMatches.length * config.contentWeight * cw }
  else acc1

/-- `matchArticle`: fold the category loop over the three categories and
assemble the result record. -/
def matchArticle (article : ArticleRow)
    (config : FilterConfig := DEFAULT_FILTER_CONFIG) : MatchResult :=
  let acc := categoriesInOrder.foldl (matchStep article config) ⟨[], [], [], 0⟩
  { matched := acc.score ≥ config.minScore
    score := acc.score
    matchedKeywords := uniqueFirst (acc.titleMatches ++ acc.contentMatches)
    matchedCategories := acc.cats
    titleMatches := uniqueFirst acc.titleMatches
    contentMatches := uniqueFirst acc.contentMatches }

/-- The score formula as claim C4 words it (following the specification):
title-matched keywords contribute `titleWeight × categoryWeight`, and only
keywords matched in the content but not in the title contribute
`contentWeight × categoryWeight`. -/
def claimedScore (article : ArticleRow) (config : FilterConfig) : ℚ :=
  (categoriesInOrder.map fun cat =>
    ((TECH_KEYWORDS cat).countP fun kw => containsKeyword article.title kw)
        * config.titleWeight * categoryWeight config cat
      + ((TECH_KEYWORDS cat).countP fun kw =>
          containsKeyword article.content kw ∧ ! containsKeyword article.title kw)
        * config.contentWeight * categoryWeight config cat).sum

/-- The score formula the code actually computes, stated keyword-wise:
every content match contributes `contentWeight × categoryWeight`, including
keywords already counted for the title. -/
def doubleCountingScore (article : ArticleRow) (config : FilterConfig) : ℚ :=
  (categoriesInOrder.map fun cat =>
    ((TECH_KEYWORDS cat).countP fun kw => containsKeyword article.title kw)
        * config.titleWeight * categoryWeight config cat
      + ((TECH_KEYWORDS cat).countP fun kw => containsKeyword article.content kw)
        * config.contentWeight * categoryWeight config cat).sum

/-! ## Helper lemmas -/

theorem mem_flatMap_filter_map_const {α β : Type} (l : List α) (m : List β)
    (p : α → β → Bool) (a : α) :
    (a ∈ l.flatMap fun x => (m.filter (p x)).map fun _ => x) ↔
      a ∈ l ∧ ∃ y ∈ m, p a y = true := by
  simp only [List.mem_flatMap, List.mem_map, List.mem_filter]
  constructor
  · rintro ⟨x, hx, y, ⟨hy, hp⟩, rfl⟩
    exact ⟨hx, y, hy, hp⟩
  · rintro ⟨ha, y, hy, hp⟩
    exact ⟨a, ha, y, ⟨hy, hp⟩, rfl⟩

/-! ## C1 — the eligibility query -/

/-- C1.  For every database state, a row is returned by
`getArticlesNeedingProcessing stage` iff it is a stored article and — for a
stage with a predecessor — it has at least one `success` ledger row at the
predecessor stage and no ledger row of any outcome at `stage`; for the first
stage (`scraped`, with no predecessor) iff it has no ledger row at all. -/
theorem mem_getArticlesNeedingProcessing_iff (db : Db) (stage : Stage) (a : ArticleRow) :
    a ∈ getArticlesNeedingProcessing stage db ↔
      a ∈ db.articles ∧
      (match getPreviousStage stage with
       | some prev =>
           (∃ pl ∈ db.processingLog,
             pl.articleId = a.id ∧ pl.stage = prev ∧ pl.status = .success) ∧
           ¬ ∃ pl ∈ db.processingLog, pl.articleId = a.id ∧ pl.stage = stage
       | none => ¬ ∃ pl ∈ db.processingLog, pl.articleId = a.id) := by
  cases stage <;>
    simp only [getArticlesNeedingProcessing, getPreviousStage, mem_sortDescBy,
      List.mem_filter, mem_flatMap_filter_map_const, Bool.not_eq_true',
      List.any_eq_false, decide_eq_true_eq, decide_eq_false_iff_not] <;>
    constructor
  · rintro ⟨ha, hnone⟩
    exact ⟨ha, fun ⟨pl, hpl, hid⟩ => hnone pl hpl hid⟩
  · rintro ⟨ha, hnone⟩
    exact ⟨ha, fun pl hpl hid => hnone ⟨pl, hpl, hid⟩⟩
  · rintro ⟨⟨ha, pl, hpl, hp⟩, hnone⟩
    exact ⟨ha, ⟨pl, hpl, hp⟩, fun ⟨pl', hpl', h1, h2⟩ => hnone pl' hpl' ⟨h1, h2⟩⟩
  · rintro ⟨ha, ⟨pl, hpl, hp⟩, hnone⟩
    exact ⟨⟨ha, pl, hpl, hp⟩, fun pl' hpl' ⟨h1, h2⟩ => hnone ⟨pl', hpl', h1, h2⟩⟩
  · rintro ⟨⟨ha, pl, hpl, hp⟩, hnone⟩
    exact ⟨ha, ⟨pl, hpl, hp⟩, fun ⟨pl', hpl', h1, h2⟩ => hnone pl' hpl' ⟨h1, h2⟩⟩
  · rintro ⟨ha, ⟨pl, hpl, hp⟩, hnone⟩
    exact ⟨⟨ha, pl, hpl, hp⟩, fun pl' hpl' ⟨h1, h2⟩ => hnone ⟨pl', hpl', h1, h2⟩⟩
  · rintro ⟨⟨ha, pl, hpl, hp⟩, hnone⟩
    exact ⟨ha, ⟨pl, hpl, hp⟩, fun ⟨pl', hpl', h1, h2⟩ => hnone pl' hpl' ⟨h1, h2⟩⟩
  · rintro ⟨ha, ⟨pl, hpl, hp⟩, hnone⟩
    exact ⟨⟨ha, pl, hpl, hp⟩, fun pl' hpl' ⟨h1, h2⟩ => hnone ⟨pl', hpl', h1, h2⟩⟩

/-! ## C2 — parking after a recorded outcome -/

/-- A stored article used in the concrete counterexample states. -/
def artA : ArticleRow := ⟨"a1", "t", "u", "", 0, "zonebourse", 0⟩

/-- A state in which article `a1` was summarized successfully and its one
publish attempt failed (so there is a `pushed` ledger row but no
`notion_sync` row). -/
def pushRetryDb : Db :=
  { emptyDb with
      articles := [artA]
      processingLog :=
        [⟨"a1", .summarized, .success, none⟩, ⟨"a1", .pushed, .failed, some "err"⟩] }

/-- C2, counterexample.  Article `a1` has a `pushed` ledger event (a failed
publish attempt), yet `getUnsyncedArticles` — the query `runPipeline` step 5
uses to select articles for publication — still returns it, so it is
selected for publication again on the next run, contradicting the claim. -/
theorem pushedFailed_reselected_counterexample :
    (∃ pl ∈ pushRetryDb.processingLog, pl.articleId = artA.id ∧ pl.stage = .pushed) ∧
    artA ∈ getUnsyncedArticles pushRetryDb := by
  decide

/-- C2, amended.  For the stages selected through
`getArticlesNeedingProcessing` (every stage with a predecessor: `filtered`,
`summarized`, `pushed` — the filter and summarize steps of the pipeline),
any recorded ledger event at the stage blocks reselection at that stage.
The publish step, however, selects via `getUnsyncedArticles`, which excludes
exactly the articles owning a `notion_sync` row: an article whose publish
attempt failed (ledger `pushed`/`failed`, no sync row) is selected for
publication again on the next run. -/
theorem stage_event_blocks_reselection_except_push :
    (∀ (db : Db) (stage prev : Stage) (a : ArticleRow),
        getPreviousStage stage = some prev →
        (∃ pl ∈ db.processingLog, pl.articleId = a.id ∧ pl.stage = stage) →
        a ∉ getArticlesNeedingProcessing stage db) ∧
    (∀ (db : Db) (a : ArticleRow),
        a ∈ getUnsyncedArticles db ↔
          a ∈ db.articles ∧
          (∃ pl ∈ db.processingLog,
            pl.articleId = a.id ∧ pl.stage = .summarized ∧ pl.status = .success) ∧
          ¬ ∃ ns ∈ db.notionSync, ns.articleId = a.id) := by
  constructor
  · intro db stage prev a hprev hev hmem
    rw [mem_getArticlesNeedingProcessing_iff] at hmem
    rw [hprev] at hmem
    exact hmem.2.2 hev
  · intro db a
    simp only [getUnsyncedArticles, mem_sortDescBy, List.mem_filter,
      mem_flatMap_filter_map_const, Bool.not_eq_true', List.any_eq_false,
      decide_eq_true_eq, decide_eq_false_iff_not]
    constructor
    · rintro ⟨⟨ha, pl, hpl, hp⟩, hnone⟩
      exact ⟨ha, ⟨pl, hpl, hp⟩, fun ⟨ns, hns, hid⟩ => hnone ns hns hid⟩
    · rintro ⟨ha, ⟨pl, hpl, hp⟩, hnone⟩
      exact ⟨⟨ha, pl, hpl, hp⟩, fun ns hns hid => hnone ⟨ns, hns, hid⟩⟩

/-- Witness for the amended C2 theorem at a concrete state: the failed
publish event on `a1` keeps it out of `getArticlesNeedingProcessing .pushed`. -/
theorem stage_event_blocks_reselection_except_push_witness :
    artA ∉ getArticlesNeedingProcessing .pushed pushRetryDb :=
  stage_event_blocks_reselection_except_push.1 pushRetryDb .pushed .summarized artA rfl
    ⟨⟨"a1", .pushed, .failed, some "err"⟩, by decide, by decide⟩

/-! ## C3 — uniqueness of success events -/

/-- The state obtained by recording `filtered`/`success` for `a1` twice. -/
def dupSuccessDb : Db :=
  logProcessing "a1" .filtered .success none
    (logProcessing "a1" .filtered .success none emptyDb)

/-- C3, counterexample.  Two `logProcessing` calls with outcome `success`
for the same (article, stage) pair both land in the ledger: nothing in the
`Record` operation or the `processing_log` schema rejects or deduplicates
the second insertion. -/
theorem duplicate_success_accepted_counterexample :
    successCount dupSuccessDb "a1" .filtered = 2 ∧
    ¬ successCount dupSuccessDb "a1" .filtered ≤ 1 := by
  decide

/-- C3, amended.  `logProcessing` is an unconditional append and the
`processing_log` table carries no uniqueness constraint on
(article, stage, status): recording `success` always adds one more
`success` row for the pair, even when one already exists. -/
theorem logProcessing_success_appends (db : Db) (id : String) (st : Stage)
    (e : Option String) :
    successCount (logProcessing id st .success e db) id st = successCount db id st + 1 ∧
    (logProcessing id st .success e db).processingLog =
      db.processingLog ++ [⟨id, st, .success, e⟩] := by
  refine ⟨?_, rfl⟩
  simp [successCount, logProcessing, List.filter_append]

/-! ## C8 — idempotent publication skip -/

/-- A state in which article `a1` already owns a `notion_sync` row. -/
def syncedDb : Db :=
  { emptyDb with
      articles := [artA]
      notionSync := [⟨"a1", "page-1", 0⟩] }

/-- C8.  When the article already owns a `notion_sync` row,
`pushArticleToNotion` returns the success-skip immediately: the database is
untouched (no new sync row, no new ledger row) and the remote service is
never called, whatever the remote oracle would have answered. -/
theorem push_skips_synced (now : Nat) (createResult : Option String)
    (errText : String) (a : ArticleRow) (db : Db)
    (h : isArticleSynced a.id db = true) :
    pushArticleToNotion now createResult errText a db =
      ⟨db, true, true, none, false⟩ := by
  simp [pushArticleToNotion, h]

/-- Witness for C8 at a concrete state. -/
theorem push_skips_synced_witness :
    pushArticleToNotion 5 (some "page-2") "err" artA syncedDb =
      ⟨syncedDb, true, true, none, false⟩ :=
  push_skips_synced 5 (some "page-2") "err" artA syncedDb (by decide)

/-! ## C9 — substantial bodies are not overwritten -/

/-- A 150-character body. -/
def longBody : String := String.mk (List.replicate 150 'x')

/-- An article whose stored body is already substantial. -/
def artLong : ArticleRow := ⟨"a1", "t", "u", longBody, 0, "zonebourse", 0⟩

/-- The state holding only `artLong`. -/
def longBodyDb : Db := { emptyDb with articles := [artLong] }

set_option maxRecDepth 8000 in
/-- C9, counterexample.  `updateArticleContent` itself is the unconditional
SQL `UPDATE articles SET content = ?`: invoked on an article whose body has
150 characters (well above the 100-character threshold) it overwrites the
stored content, so the claimed no-op does not live in this operation. -/
theorem updateArticleContent_overwrites_counterexample :
    100 < artLong.content.length ∧
    (updateArticleContent "a1" "new" longBodyDb).articles ≠ longBodyDb.articles := by
  decide

/-- C9, amended.  The substantial-body guard lives in the caller: the
`extractArticleContents` loop skips any article whose stored content exceeds
100 characters before ever calling `updateArticleContent`, leaving the
database — the article's content and every other field — unchanged. -/
theorem extractStep_skips_substantial (db : Db) (a : ArticleRow)
    (extracted : Option String) (h : 100 < a.content.length) :
    extractStep extracted a db = (db, .skipped) := by
  have hne : ¬ a.content = "" := by
    intro he
    rw [he] at h
    simp at h
  simp [extractStep, hne, h]

set_option maxRecDepth 8000 in
/-- Witness for the amended C9 theorem at a concrete state. -/
theorem extractStep_skips_substantial_witness :
    extractStep (some "fresh") artLong longBodyDb = (longBodyDb, .skipped) :=
  extractStep_skips_substantial longBodyDb artLong (some "fresh") (by decide)

/-! ## C10 — at most one sync row per article -/

theorem filter_length_map_replaceSync (l : List SyncRow) (id p : String)
    (now : Nat) (idq : String) :
    ((l.map fun ns => if ns.articleId = id then ⟨id, p, now⟩ else ns).filter
      fun ns => decide (ns.articleId = idq)).length =
    (l.filter fun ns => decide (ns.articleId = idq)).length := by
  induction l with
  | nil => rfl
  | cons ns l ih =>
    simp only [List.map_cons, List.filter_cons]
    by_cases h : ns.articleId = id
    · rw [if_pos h]
      by_cases hq : ns.articleId = idq
      · have h2 : id = idq := h.symm.trans hq
        subst h2
        simp [hq, ih]
      · have h2 : ¬ id = idq := fun e => hq (h.trans e)
        simp [h2, hq, ih]
    · rw [if_neg h]
      by_cases hq : ns.articleId = idq
      · simp [hq, ih]
      · simp [hq, ih]

theorem find?_map_replaceSync (l : List SyncRow) (id p : String) (now : Nat)
    (h : ∃ ns ∈ l, ns.articleId = id) :
    (l.map fun ns => if ns.articleId = id then ⟨id, p, now⟩ else ns).find?
      (fun ns => decide (ns.articleId = id)) = some ⟨id, p, now⟩ := by
  induction l with
  | nil => simp at h
  | cons ns l ih =>
    by_cases hh : ns.articleId = id
    · simp [List.find?_cons, hh]
    · obtain ⟨ns', hns', hid⟩ := h
      rcases List.mem_cons.mp hns' with rfl | hmem
      · exact absurd hid hh
      · rw [List.map_cons, if_neg hh, List.find?_cons]
        rw [show (decide (ns.articleId = id)) = false from decide_eq_false hh]
        exact ih ⟨ns', hmem, hid⟩

theorem upsertSummary_notionSync (i s : String) (d : Option String)
    (t : Option Nat) (db : Db) :
    (upsertSummary i s d t db).notionSync = db.notionSync := by
  unfold upsertSummary
  split <;> rfl

theorem saveBriefing_notionSync (b : BriefingRow) (db : Db) :
    (saveBriefing b db).notionSync = db.notionSync := by
  unfold saveBriefing
  split <;> rfl

theorem syncCount_recordNotionSync_le (db : Db) (id p : String) (now : Nat)
    (idq : String) (h : syncCount db idq ≤ 1) :
    syncCount (recordNotionSync id p now db) idq ≤ 1 := by
  unfold recordNotionSync
  split
  · unfold syncCount
    simpa [filter_length_map_replaceSync] using h
  · rename_i hany
    unfold syncCount at h ⊢
    simp only [List.filter_append, List.length_append]
    by_cases hq : id = idq
    · have hzero : (db.notionSync.filter fun ns => decide (ns.articleId = idq)).length = 0 := by
        rw [List.length_eq_zero, List.filter_eq_nil_iff]
        intro ns hns
        simp only [decide_eq_true_eq]
        intro hid
        exact hany (List.any_eq_true.mpr ⟨ns, hns, by simp [hid, hq]⟩)
      simp [hzero, hq]
    · simp [hq]
      omega

/-- C10.  Every reachable database state holds at most one `notion_sync`
row per article id, and `recordNotionSync` on an already-synced article is
an in-place upsert: the table keeps its size and the article's row now
carries the new page id and the fresh sync time — no second row, no
failure. -/
theorem notionSync_at_most_one_row :
    (∀ db : Db, Reachable db → ∀ id, syncCount db id ≤ 1) ∧
    (∀ (db : Db) (id p : String) (now : Nat),
        (∃ ns ∈ db.notionSync, ns.articleId = id) →
        (recordNotionSync id p now db).notionSync.length = db.notionSync.length ∧
        getNotionSync id (recordNotionSync id p now db) = some ⟨id, p, now⟩) := by
  constructor
  · intro db h
    induction h with
    | refl => intro id; simp [syncCount, emptyDb]
    | tail _ step ih =>
      intro id
      cases step with
      | insertArticle a => exact ih id
      | updateArticleContent i c => exact ih id
      | logProcessing i st s e => exact ih id
      | upsertSummary i s d t =>
        simpa [syncCount, upsertSummary_notionSync] using ih id
      | recordNotionSync i n t => exact syncCount_recordNotionSync_le _ i n t id (ih id)
      | saveBriefing b =>
        simpa [syncCount, saveBriefing_notionSync] using ih id
      | updateBriefingNotionId d n => exact ih id
  · intro db id p now h
    have hany : (db.notionSync.any fun ns => decide (ns.articleId = id)) = true := by
      obtain ⟨ns, hns, hid⟩ := h
      exact List.any_eq_true.mpr ⟨ns, hns, by simp [hid]⟩
    constructor
    · simp [recordNotionSync, hany]
    · unfold getNotionSync recordNotionSync
      rw [if_pos hany]
      exact find?_map_replaceSync db.notionSync id p now h

/-- Witness for C10: the invariant at a state reached by one
`recordNotionSync` step, and the in-place replacement on `syncedDb`. -/
theorem notionSync_at_most_one_row_witness :
    syncCount (recordNotionSync "a1" "p" 0 emptyDb) "a1" ≤ 1 ∧
    getNotionSync "a1" (recordNotionSync "a1" "p2" 7 syncedDb) = some ⟨"a1", "p2", 7⟩ :=
  ⟨notionSync_at_most_one_row.1 _
      (Relation.ReflTransGen.single (DbMutation.recordNotionSync "a1" "p" 0 emptyDb)) "a1",
    (notionSync_at_most_one_row.2 syncedDb "a1" "p2" 7
      ⟨⟨"a1", "page-1", 0⟩, by decide, rfl⟩).2⟩

/-! ## C6, C7 — digest idempotence and persist-before-publish -/

theorem briefings_filter_nil (db : Db) (today : Nat)
    (h : briefingExists today db = false) :
    db.dailyBriefings.filter (fun b => decide (b.date = today)) = [] := by
  rw [List.filter_eq_nil_iff]
  intro b hb
  have h2 := (List.any_eq_false.mp h) b hb
  simpa using h2

theorem filter_length_map_setPageId (l : List BriefingRow) (today : Nat)
    (pid : String) (d : Nat) :
    ((l.map fun r => if r.date = today then { r with notionPageId := some pid } else r).filter
      fun b => decide (b.date = d)).length =
    (l.filter fun b => decide (b.date = d)).length := by
  induction l with
  | nil => rfl
  | cons r l ih =>
    simp only [List.map_cons, List.filter_cons]
    by_cases h : r.date = today
    · rw [if_pos h]
      by_cases hd : r.date = d
      · simp [hd, ih]
      · simp [hd, ih]
    · rw [if_neg h]
      by_cases hd : r.date = d <;> simp [hd, ih]

theorem find?_briefing_append (l : List BriefingRow) (b : BriefingRow) (today : Nat)
    (h : ∀ r ∈ l, ¬ r.date = today) (hb : b.date = today) :
    (l ++ [b]).find? (fun r => decide (r.date = today)) = some b := by
  induction l with
  | nil => simp [List.find?_cons, hb]
  | cons r l ih =>
    have hr := h r (List.mem_cons_self r l)
    rw [List.cons_append, List.find?_cons,
      show decide (r.date = today) = false from decide_eq_false hr]
    exact ih fun x hx => h x (List.mem_cons_of_mem r hx)

/-- The append branch of the `saveBriefing` upsert: with no existing row for
the date, the new row is appended. -/
theorem saveBriefing_append (b : BriefingRow) (db : Db)
    (h : briefingExists b.date db = false) :
    (saveBriefing b db).dailyBriefings = db.dailyBriefings ++ [b] := by
  have hany : (db.dailyBriefings.any fun r => decide (r.date = b.date)) = false := h
  unfold saveBriefing
  rw [if_neg (by simp [hany])]

/-- The short-circuit branch of `runDailyDigest`: with a briefing row for
today already present, the call is a complete no-op. -/
theorem runDailyDigest_skip (today : Nat) (s : String) (n : Option String)
    (db : Db) (h : briefingExists today db = true) :
    runDailyDigest today s n db = ⟨db, [], false, false, true⟩ := by
  simp [runDailyDigest, h]

/-- Unfolding `runDailyDigest` in the interesting branch: no briefing row for
today yet and at least one article synced today.  The briefing row (count +
narrative, no page id) lands in the table, followed — only when the Notion
push returned a page id — by the in-place page-id update. -/
theorem runDailyDigest_run (today : Nat) (s : String) (n : Option String) (db : Db)
    (h1 : briefingExists today db = false)
    (h2 : getTodaySyncedArticles today db ≠ []) :
    runDailyDigest today s n db =
      ⟨(match n with
        | some pid =>
            updateBriefingNotionId today pid
              (saveBriefing ⟨today, (getTodaySyncedArticles today db).length, s, none⟩ db)
        | none =>
            saveBriefing ⟨today, (getTodaySyncedArticles today db).length, s, none⟩ db),
       [.summaryRequest, .saveRecord, .remoteAttempt], true, true, true⟩ := by
  have harts : (getTodaySyncedArticles today db).isEmpty = false := by
    cases hh : getTodaySyncedArticles today db with
    | nil => exact absurd hh h2
    | cons x xs => rfl
  cases n with
  | none => simp [runDailyDigest, h1, harts]
  | some pid => simp [runDailyDigest, h1, harts]

/-- After the interesting branch ran, a briefing row for today exists. -/
theorem briefingExists_after_run (today : Nat) (s : String) (n : Option String)
    (db : Db) (h1 : briefingExists today db = false)
    (h2 : getTodaySyncedArticles today db ≠ []) :
    briefingExists today (runDailyDigest today s n db).db = true := by
  rw [runDailyDigest_run today s n db h1 h2]
  have hmem : (⟨today, (getTodaySyncedArticles today db).length, s, none⟩ : BriefingRow) ∈
      (saveBriefing ⟨today, (getTodaySyncedArticles today db).length, s, none⟩ db).dailyBriefings := by
    rw [saveBriefing_append ⟨today, (getTodaySyncedArticles today db).length, s, none⟩ db h1]
    exact List.mem_append_right _ (List.mem_singleton.mpr rfl)
  cases n with
  | none =>
    exact List.any_eq_true.mpr ⟨_, hmem, by simp⟩
  | some pid =>
    refine List.any_eq_true.mpr ?_
    refine ⟨⟨today, (getTodaySyncedArticles today db).length, s, some pid⟩, ?_, by simp⟩
    simp only [updateBriefingNotionId, List.mem_map]
    exact ⟨_, hmem, by simp⟩

/-- C6, counterexample.  With no article synced in the period (the fresh
database), running the digest step twice for the same period key writes no
`daily_briefings` row at all: the table stays empty, so "exactly one
DigestRecord" fails (there are zero). -/
theorem digest_empty_period_counterexample :
    (runDailyDigest 0 "s" none ((runDailyDigest 0 "s" none emptyDb).db)).db.dailyBriefings.length = 0 ∧
    ¬ ((runDailyDigest 0 "s" none ((runDailyDigest 0 "s" none emptyDb).db)).db.dailyBriefings.filter
        fun b => decide (b.date = 0)).length = 1 := by
  decide

/-- C6, amended.  When the period key has no briefing row yet and at least
one article was synced in the period, running the digest step twice for the
same period key leaves exactly one `daily_briefings` row for the key, and
the second call is a no-op: it returns the database unchanged, records no
externally visible action (no save, no summary request), and reports
nothing saved.  (With zero synced articles neither call writes anything —
zero rows, not one.) -/
theorem digest_idempotent_once_nonempty (today : Nat) (s s2 : String)
    (n n2 : Option String) (db : Db)
    (h1 : briefingExists today db = false)
    (h2 : getTodaySyncedArticles today db ≠ []) :
    ((runDailyDigest today s n db).db.dailyBriefings.filter
        fun b => decide (b.date = today)).length = 1 ∧
    runDailyDigest today s2 n2 (runDailyDigest today s n db).db =
      ⟨(runDailyDigest today s n db).db, [], false, false, true⟩ := by
  have hnil := briefings_filter_nil db today h1
  have hsaved := saveBriefing_append
    ⟨today, (getTodaySyncedArticles today db).length, s, none⟩ db h1
  constructor
  · rw [runDailyDigest_run today s n db h1 h2]
    cases n with
    | none =>
      simp only [hsaved, List.filter_append, hnil, List.nil_append]
      simp
    | some pid =>
      simp only [updateBriefingNotionId, filter_length_map_setPageId, hsaved,
        List.filter_append, hnil, List.nil_append]
      simp
  · exact runDailyDigest_skip today s2 n2 _ (briefingExists_after_run today s n db h1 h2)

/-- C7.  In the interesting branch (no briefing yet, some synced articles)
with the remote publication failing (`none` page id): the save of the
briefing record happens strictly before the remote attempt in the event
trace, the record — article count and narrative, no page id — is in the
local store afterwards, and a later run for the same key is a complete
no-op, so the digest is never regenerated. -/
theorem digest_persists_before_remote (today : Nat) (s s2 : String)
    (n2 : Option String) (db : Db)
    (h1 : briefingExists today db = false)
    (h2 : getTodaySyncedArticles today db ≠ []) :
    (runDailyDigest today s none db).events.indexOf DigestEvent.saveRecord <
      (runDailyDigest today s none db).events.indexOf DigestEvent.remoteAttempt ∧
    getBriefing today (runDailyDigest today s none db).db =
      some ⟨today, (getTodaySyncedArticles today db).length, s, none⟩ ∧
    runDailyDigest today s2 n2 (runDailyDigest today s none db).db =
      ⟨(runDailyDigest today s none db).db, [], false, false, true⟩ := by
  have hrun := runDailyDigest_run today s none db h1 h2
  refine ⟨?_, ?_, ?_⟩
  · rw [hrun]
    show ([DigestEvent.summaryRequest, DigestEvent.saveRecord,
        DigestEvent.remoteAttempt].indexOf DigestEvent.saveRecord <
      [DigestEvent.summaryRequest, DigestEvent.saveRecord,
        DigestEvent.remoteAttempt].indexOf DigestEvent.remoteAttempt)
    decide
  · rw [hrun]
    show getBriefing today
        (saveBriefing ⟨today, (getTodaySyncedArticles today db).length, s, none⟩ db) = _
    rw [getBriefing,
      saveBriefing_append ⟨today, (getTodaySyncedArticles today db).length, s, none⟩ db h1]
    refine find?_briefing_append _ _ _ ?_ rfl
    intro r hr hd
    have := (List.any_eq_false.mp h1) r hr
    simp [hd] at this
  · exact runDailyDigest_skip today s2 n2 _ (briefingExists_after_run today s none db h1 h2)

/-- An article synced on day 9 with a stored summary, for the C6/C7
witnesses. -/
def digestDb : Db :=
  { emptyDb with
      articles := [⟨"a1", "t", "u", "body", 3, "zonebourse", 0⟩]
      notionSync := [⟨"a1", "page-1", 9⟩]
      summaries := [⟨"a1", "short", none, none⟩] }

/-- Witness for the amended C6 theorem at a concrete state. -/
theorem digest_idempotent_once_nonempty_witness :
    ((runDailyDigest 9 "sum" (some "pg") digestDb).db.dailyBriefings.filter
        fun b => decide (b.date = 9)).length = 1 ∧
    runDailyDigest 9 "other" none (runDailyDigest 9 "sum" (some "pg") digestDb).db =
      ⟨(runDailyDigest 9 "sum" (some "pg") digestDb).db, [], false, false, true⟩ :=
  digest_idempotent_once_nonempty 9 "sum" "other" (some "pg") none digestDb
    (by decide) (by decide)

/-- Witness for C7 at a concrete state. -/
theorem digest_persists_before_remote_witness :
    getBriefing 9 (runDailyDigest 9 "sum" none digestDb).db =
      some ⟨9, (getTodaySyncedArticles 9 digestDb).length, "sum", none⟩ :=
  (digest_persists_before_remote 9 "sum" "other" none digestDb
    (by decide) (by decide)).2.1

/-! ## C4, C5 — filter scoring -/

theorem findMatches_length (t : String) (kws : List String) :
    (findMatches t kws).length = kws.countP fun kw => containsKeyword t kw :=
  (List.countP_eq_length_filter _ _).symm

theorem matchStep_score (a : ArticleRow) (cfg : FilterConfig) (acc : MatchAcc)
    (cat : KeywordCategory) :
    (matchStep a cfg acc cat).score =
      acc.score
        + (findMatches a.title (TECH_KEYWORDS cat)).length * cfg.titleWeight
            * categoryWeight cfg cat
        + (findMatches a.content (TECH_KEYWORDS cat)).length * cfg.contentWeight
            * categoryWeight cfg cat := by
  simp only [matchStep]
  split_ifs with h1 h2 h3 <;>
    simp only [Nat.not_lt, Nat.le_zero] at * <;>
    simp [*]

/-- The score the category loop accumulates, written out over the three
concrete categories. -/
theorem matchArticle_score_eval (a : ArticleRow) (cfg : FilterConfig) :
    (matchArticle a cfg).score = doubleCountingScore a cfg := by
  show (categoriesInOrder.foldl (matchStep a cfg) ⟨[], [], [], 0⟩).score = _
  simp only [categoriesInOrder, List.foldl_cons, List.foldl_nil]
  rw [matchStep_score, matchStep_score, matchStep_score]
  unfold doubleCountingScore
  simp only [categoriesInOrder, List.map_cons, List.map_nil, List.sum_cons,
    List.sum_nil, findMatches_length]
  ring

/-- The boolean `matched` field is exactly the threshold test on the score. -/
theorem matchArticle_matched_eq (a : ArticleRow) (cfg : FilterConfig) :
    (matchArticle a cfg).matched =
      decide ((matchArticle a cfg).score ≥ cfg.minScore) := rfl

/-- The article of claim C4's counterexample: the keyword `Apple` occurs in
both the title and the body. -/
def appleArt : ArticleRow := ⟨"x1", "Apple", "u", "Apple", 0, "zonebourse", 0⟩

/-- C4, counterexample.  For an article whose title and body both contain
the single keyword `Apple`, the code's score is `3×2 + 1×2 = 8`: the body
occurrence of the title-matched keyword is charged again.  The claimed
no-double-count formula gives `3×2 = 6`. -/
theorem matchArticle_double_counts_counterexample :
    (matchArticle appleArt DEFAULT_FILTER_CONFIG).score ≠
      claimedScore appleArt DEFAULT_FILTER_CONFIG := by
  have ht1 : ((TECH_KEYWORDS KeywordCategory.companies).countP
      fun kw => containsKeyword appleArt.title kw) = 1 := by decide
  have ht2 : ((TECH_KEYWORDS KeywordCategory.themes).countP
      fun kw => containsKeyword appleArt.title kw) = 0 := by decide
  have ht3 : ((TECH_KEYWORDS KeywordCategory.terms).countP
      fun kw => containsKeyword appleArt.title kw) = 0 := by decide
  have hc1 : ((TECH_KEYWORDS KeywordCategory.companies).countP
      fun kw => containsKeyword appleArt.content kw) = 1 := by decide
  have hc2 : ((TECH_KEYWORDS KeywordCategory.themes).countP
      fun kw => containsKeyword appleArt.content kw) = 0 := by decide
  have hc3 : ((TECH_KEYWORDS KeywordCategory.terms).countP
      fun kw => containsKeyword appleArt.content kw) = 0 := by decide
  have ho1 : ((TECH_KEYWORDS KeywordCategory.companies).countP
      fun kw => containsKeyword appleArt.content kw
        ∧ ! containsKeyword appleArt.title kw) = 0 := by decide
  have ho2 : ((TECH_KEYWORDS KeywordCategory.themes).countP
      fun kw => containsKeyword appleArt.content kw
        ∧ ! containsKeyword appleArt.title kw) = 0 := by decide
  have ho3 : ((TECH_KEYWORDS KeywordCategory.terms).countP
      fun kw => containsKeyword appleArt.content kw
        ∧ ! containsKeyword appleArt.title kw) = 0 := by decide
  rw [matchArticle_score_eval]
  unfold doubleCountingScore claimedScore
  simp only [categoriesInOrder, List.map_cons, List.map_nil, List.sum_cons,
    List.sum_nil, ht1, ht2, ht3, hc1, hc2, hc3, ho1, ho2, ho3]
  norm_num [DEFAULT_FILTER_CONFIG, categoryWeight]

/-- C4, amended.  The returned score sums title-matched keywords at
`titleWeight × categoryWeight` and **all** content-matched keywords —
including those already counted for the title — at
`contentWeight × categoryWeight`; the title-dedup applies only to the
reported `matchedKeywords`/`contentMatches` lists, not to the score. -/
theorem matchArticle_score_double_counts (a : ArticleRow) (cfg : FilterConfig) :
    (matchArticle a cfg).score = doubleCountingScore a cfg :=
  matchArticle_score_eval a cfg

/-- The article of the spec's concrete scenario A (claim C5). -/
def nvidiaArt : ArticleRow :=
  ⟨"n1", "NVIDIA unveils new AI chip", "u", "", 0, "zonebourse", 0⟩

theorem nvidia_title_counts :
    ((TECH_KEYWORDS KeywordCategory.companies).countP
        fun kw => containsKeyword nvidiaArt.title kw) = 1 ∧
    ((TECH_KEYWORDS KeywordCategory.themes).countP
        fun kw => containsKeyword nvidiaArt.title kw) = 0 ∧
    ((TECH_KEYWORDS KeywordCategory.terms).countP
        fun kw => containsKeyword nvidiaArt.title kw) = 0 ∧
    ((TECH_KEYWORDS KeywordCategory.companies).countP
        fun kw => containsKeyword nvidiaArt.content kw) = 0 ∧
    ((TECH_KEYWORDS KeywordCategory.themes).countP
        fun kw => containsKeyword nvidiaArt.content kw) = 0 ∧
    ((TECH_KEYWORDS KeywordCategory.terms).countP
        fun kw => containsKeyword nvidiaArt.content kw) = 0 := by
  refine ⟨by decide, by decide, by decide, by decide, by decide, by decide⟩

theorem nvidia_score_eval :
    (matchArticle nvidiaArt DEFAULT_FILTER_CONFIG).score = 6 := by
  obtain ⟨h1, h2, h3, h4, h5, h6⟩ := nvidia_title_counts
  rw [matchArticle_score_eval]
  unfold doubleCountingScore
  simp only [categoriesInOrder, List.map_cons, List.map_nil, List.sum_cons,
    List.sum_nil, h1, h2, h3, h4, h5, h6]
  norm_num [DEFAULT_FILTER_CONFIG, categoryWeight]

/-- C5, counterexample.  Under the default configuration the article with
title `NVIDIA unveils new AI chip` and empty body does **not** score
`3×2 + 3×1.5 = 13.5`: the configured keyword table has the French theme
keyword `IA`, not `AI`, and the 2-character keyword is matched with word
boundaries, so nothing matches `AI` and only `NVIDIA` scores. -/
theorem nvidia_scenario_score_counterexample :
    (matchArticle nvidiaArt DEFAULT_FILTER_CONFIG).score ≠ 27/2 := by
  rw [nvidia_score_eval]
  norm_num

/-- C5, amended.  The scenario-A article scores `3×2 = 6` — the title match
`NVIDIA` at title weight 3 and company weight 2; `AI` contributes nothing
because the table's AI theme keyword is the French `IA` — and the article
is still matched, since 6 clears the threshold of 2. -/
theorem nvidia_scenario_score :
    (matchArticle nvidiaArt DEFAULT_FILTER_CONFIG).score = 6 ∧
    (matchArticle nvidiaArt DEFAULT_FILTER_CONFIG).matched = true := by
  refine ⟨nvidia_score_eval, ?_⟩
  rw [matchArticle_matched_eq, nvidia_score_eval]
  rw [decide_eq_true_eq]
  norm_num [DEFAULT_FILTER_CONFIG]

end TFN
